import Mathlib

/-!
Shallow embedding of the review-index core of the `interview-test` repository
(Rust sources under `src/backend/src/`): the data model (`models.rs`), the
JSONL metadata log (`storage.rs`) and the ingestion / bulk / search
coordinators (`main.rs`).

Modelling conventions:
* Rust `String` is Lean `String`; `str::len` (UTF-8 byte count) is
  `String.utf8ByteSize`; `str::trim` is `rustTrim` over the Unicode
  White_Space set used by `char::is_whitespace`.
* `usize` is `Nat`; the one place the source subtracts on `usize`
  (`current_vector_index - 1` in `bulk_upload`) is modelled with wrapping
  subtraction modulo 2^64 (`usize_sub_one`), the release-build semantics.
* The JSONL file on disk is a `List LogLine`: each physical line is either
  blank (trims to empty), a line holding a serialized `ReviewMetadata`
  record, or a non-blank line that does not deserialize (`corrupt`).  A
  missing file behaves exactly like the empty list in every storage
  operation, so it is identified with `[]`.
* `serde_json` deserialization of external payloads is abstracted as
  explicit parse functions passed in as parameters (`from_value`,
  `from_str`); `uuid::Uuid::new_v4()` and `Utc::now()` are modelled as
  parameters (`id` / `genId`, `now`).
* `f32` similarity scores are modelled as `ℚ`; the ranking claims are
  stated for every score assignment, so no property depends on the exact
  float values.
-/

namespace Interview

/-- Equality on `Except` (Rust `Result`) is decidable when it is on both
components; used by `decide` in concrete evaluations. -/
instance {ε α : Type} [DecidableEq ε] [DecidableEq α] :
    DecidableEq (Except ε α) := fun x y =>
  match x, y with
  | .ok a, .ok b =>
      if h : a = b then isTrue (by rw [h]) else isFalse (by simp [h])
  | .error a, .error b =>
      if h : a = b then isTrue (by rw [h]) else isFalse (by simp [h])
  | .ok _, .error _ => isFalse (by simp)
  | .error _, .ok _ => isFalse (by simp)

/-- `models.rs` `ReviewData`: the user-supplied review payload.
`rating: u8` is modelled as `Nat` (serde rejects out-of-range input). -/
structure ReviewData where
  title : String
  body : String
  product_id : String
  rating : Nat
deriving Repr, DecidableEq

/-- `models.rs` `ReviewMetadata`: the persisted record.  `DateTime<Utc>` is
modelled as an abstract instant (`Nat`); no claim inspects the timestamp. -/
structure ReviewMetadata where
  id : String
  title : String
  body : String
  product_id : String
  rating : Nat
  timestamp : Nat
  vector_index : Nat
deriving Repr, DecidableEq

/-- `models.rs` `ValidationError`. -/
inductive ValidationError where
  | MissingField (field : String)
  | InvalidValue (field : String) (reason : String)
  | TooShort (field : String) (min_length : Nat)
  | TooLong (field : String) (max_length : Nat)
  | InvalidRating
deriving Repr, DecidableEq

/-- `models.rs` `AppError`, restricted to the variants the embedded code can
produce.  Error payloads that the source only renders into messages
(`serde_json::Error`, `std::io::Error`) are carried as strings. -/
inductive AppError where
  | Validation (e : ValidationError)
  | FileOperation (msg : String)
  | Serialization (msg : String)
  | Concurrency (msg : String)
deriving Repr, DecidableEq

/-- The Unicode White_Space property, as used by Rust `char::is_whitespace`
(and hence by `str::trim`). -/
def rustIsWhitespace (c : Char) : Bool :=
  c.val = 0x09 || c.val = 0x0A || c.val = 0x0B || c.val = 0x0C ||
  c.val = 0x0D || c.val = 0x20 || c.val = 0x85 || c.val = 0xA0 ||
  c.val = 0x1680 || (0x2000 ≤ c.val && c.val ≤ 0x200A) ||
  c.val = 0x2028 || c.val = 0x2029 || c.val = 0x202F || c.val = 0x205F ||
  c.val = 0x3000

/-- Rust `str::trim`: strip leading and trailing Unicode whitespace. -/
def rustTrim (s : String) : String :=
  String.mk (((s.data.dropWhile rustIsWhitespace).reverse.dropWhile
    rustIsWhitespace).reverse)

/-- Rust `str::len`: the UTF-8 byte length of the string. -/
def rustLen (s : String) : Nat :=
  s.utf8ByteSize

/-- `models.rs` `ReviewData::validate`, check for check in source order. -/
def ReviewData.validate (d : ReviewData) : Except ValidationError Unit :=
  if (rustTrim d.title).isEmpty then
    .error (.MissingField "title")
  else if (rustTrim d.body).isEmpty then
    .error (.MissingField "body")
  else if (rustTrim d.product_id).isEmpty then
    .error (.MissingField "product_id")
  else if rustLen d.title < 3 then
    .error (.TooShort "title" 3)
  else if rustLen d.title > 200 then
    .error (.TooLong "title" 200)
  else if rustLen d.body < 10 then
    .error (.TooShort "body" 10)
  else if rustLen d.body > 2000 then
    .error (.TooLong "body" 2000)
  else if rustLen d.product_id > 100 then
    .error (.TooLong "product_id" 100)
  else if d.rating < 1 || d.rating > 5 then
    .error .InvalidRating
  else
    .ok ()

/-- `models.rs` `ReviewData::to_metadata`.  `uuid::Uuid::new_v4()` and
`Utc::now()` are environment effects, passed in as `id` and `now`. -/
def ReviewData.to_metadata (d : ReviewData) (id : String) (now : Nat)
    (vector_index : Nat) : Except AppError ReviewMetadata :=
  match d.validate with
  | .error e => .error (.Validation e)
  | .ok _ => .ok
      { id := id
        title := d.title
        body := d.body
        product_id := d.product_id
        rating := d.rating
        timestamp := now
        vector_index := vector_index }

example : (ReviewData.mk "abc" "0123456789" "p" 5).validate = .ok () := by
  decide

example : (ReviewData.mk " ab" "0123456789" "p" 5).validate = .ok () := by
  decide

example : (ReviewData.mk "ab" "0123456789" "p" 5).validate
    = .error (.TooShort "title" 3) := by decide

/-! ### Storage (`storage.rs`) -/

/-- One physical line of the JSONL metadata log.  `blank` is a line whose
trim is empty; `record` is a line that deserializes to a `ReviewMetadata`;
`corrupt raw` is a non-blank line that `serde_json::from_str` rejects. -/
inductive LogLine where
  | blank
  | record (r : ReviewMetadata)
  | corrupt (raw : String)
deriving Repr, DecidableEq

/-- The content of the `reviews.jsonl` file, one `LogLine` per physical
line.  A missing file is identified with `[]` (every storage operation
treats the two identically). -/
abbrev LogFile := List LogLine

/-- Whether a line survives the `!line.trim().is_empty()` tests of
`storage.rs`. -/
def LogLine.nonBlank : LogLine → Bool
  | .blank => false
  | .record _ => true
  | .corrupt _ => true

/-- `storage.rs` `JsonlStorage::count_reviews`: count the non-blank lines
(whether or not they parse). -/
def count_reviews : LogFile → Nat
  | [] => 0
  | line :: rest => (if line.nonBlank then 1 else 0) + count_reviews rest

/-- `storage.rs` `JsonlStorage::get_review_by_index`: scan physical lines
until `line_index == index`; a blank line there yields `none`, a corrupt
line a `Serialization` error, and falling off the end yields `none`. -/
def get_review_by_index : LogFile → Nat → Except AppError (Option ReviewMetadata)
  | [], _ => .ok none
  | line :: rest, index =>
    match index with
    | 0 =>
      match line with
      | .blank => .ok none
      | .record r => .ok (some r)
      | .corrupt raw => .error (.Serialization ("invalid JSON: " ++ raw))
    | i + 1 => get_review_by_index rest i

/-- `storage.rs` `JsonlStorage::read_all_reviews`: collect the records of
all non-blank lines in order; the first non-blank line that fails to
deserialize aborts with a `Serialization` error. -/
def read_all_reviews : LogFile → Except AppError (List ReviewMetadata)
  | [] => .ok []
  | .blank :: rest => read_all_reviews rest
  | .corrupt raw :: _ => .error (.Serialization ("invalid JSON: " ++ raw))
  | .record r :: rest =>
      match read_all_reviews rest with
      | .ok rs => .ok (r :: rs)
      | .error e => .error e

/-- `storage.rs` `JsonlStorage::append_review`: append one serialized
record line. -/
def append_review (f : LogFile) (review : ReviewMetadata) : LogFile :=
  f ++ [.record review]

/-- `storage.rs` `JsonlStorage::append_reviews`: buffered append of many
record lines in order. -/
def append_reviews (f : LogFile) (reviews : List ReviewMetadata) : LogFile :=
  f ++ reviews.map .record

/-! ### Single insert (`main.rs` `create_review`) -/

/-- The observable steps of a write handler, in execution order: reading
`count_reviews`, acquiring the exclusive `FileLock`, appending to the log,
and releasing the lock (the `Drop` of the lock guard). -/
inductive WriteEvent where
  | countRead
  | lockAcquire
  | appendLine
  | lockRelease
deriving Repr, DecidableEq

/-- The success payload of `create_review` (`review_id`, `vector_index`,
`timestamp` of the JSON response). -/
structure SingleResponse where
  review_id : String
  vector_index : Nat
  timestamp : Nat
deriving Repr, DecidableEq

/-- `main.rs` `create_review`, with its step order made observable as a
`WriteEvent` trace: validate; read `count_reviews` to pick the
`vector_index`; build the metadata via `to_metadata`; only then acquire the
`FileLock`; append; release on drop.  `uuid`/`Utc::now` are the `id` /
`now` parameters; directory creation is an I/O no-op in the model. -/
def create_review (d : ReviewData) (id : String) (now : Nat) (f : LogFile) :
    Except AppError (SingleResponse × LogFile × List WriteEvent) :=
  match d.validate with
  | .error e => .error (.Validation e)
  | .ok _ =>
    let vector_index := count_reviews f
    let ev1 : List WriteEvent := [.countRead]
    match d.to_metadata id now vector_index with
    | .error e => .error e
    | .ok review_metadata =>
      let ev2 := ev1 ++ [.lockAcquire]
      let f2 := append_review f review_metadata
      let ev3 := ev2 ++ [.appendLine]
      .ok
        ({ review_id := review_metadata.id
           vector_index := vector_index
           timestamp := review_metadata.timestamp },
         f2, ev3 ++ [.lockRelease])

/-- A sequence of single inserts: run `create_review` on each input in turn
(each with its fresh id and timestamp), threading the log file; stop at the
first failure. -/
def run_single_inserts :
    List (ReviewData × String × Nat) → LogFile → Except AppError LogFile
  | [], f => .ok f
  | (d, id, now) :: rest, f =>
    match create_review d id now f with
    | .error e => .error e
    | .ok (_, f2, _) => run_single_inserts rest f2

/-! ### Bulk insert (`main.rs` `bulk_upload`, `parse_bulk_data`,
`process_single_review`) -/

/-- `models.rs` `ValidationError`'s `Display` messages (the `#[error]`
format strings of the `thiserror` derive). -/
def ValidationError.display : ValidationError → String
  | .MissingField field => "Missing required field: " ++ field
  | .InvalidValue field reason =>
      "Invalid field value: " ++ field ++ " - " ++ reason
  | .TooShort field min_length =>
      "Field too short: " ++ field ++ " must be at least " ++
        toString min_length ++ " characters"
  | .TooLong field max_length =>
      "Field too long: " ++ field ++ " must be at most " ++
        toString max_length ++ " characters"
  | .InvalidRating => "Invalid rating: must be between 1 and 5"

/-- `models.rs` `AppError`'s `Display` messages. -/
def AppError.display : AppError → String
  | .Validation e => "Validation error: " ++ e.display
  | .FileOperation msg => "File operation error: " ++ msg
  | .Serialization msg => "Serialization error: " ++ msg
  | .Concurrency msg => "Concurrency error: " ++ msg

/-- `models.rs` `BulkError`: one failed item of a bulk upload.  The `data`
field holds `serde_json::to_value` of the input, which cannot fail for a
`ReviewData`, so it is `some` of the input itself. -/
structure BulkError where
  line_number : Nat
  error : String
  data : Option ReviewData
deriving Repr, DecidableEq

/-- `models.rs` `BulkUploadResult`. -/
structure BulkUploadResult where
  total_processed : Nat
  successful : Nat
  failed : List BulkError
deriving Repr, DecidableEq

/-- The fields of `bulk_upload`'s JSON success response that the claims
reference. -/
structure BulkResponse where
  result : BulkUploadResult
  starting_vector_index : Nat
  ending_vector_index : Nat
deriving Repr, DecidableEq

/-- `main.rs` `process_single_review`: validate, then build metadata. -/
def process_single_review (d : ReviewData) (id : String) (now : Nat)
    (vector_index : Nat) : Except AppError ReviewMetadata :=
  match d.validate with
  | .error e => .error (.Validation e)
  | .ok _ => d.to_metadata id now vector_index

/-- The per-item loop of `main.rs` `bulk_upload` (lines 191-205): iterate
the parsed inputs with their 0-based `line_number`, accumulating
`successful_reviews`, `failed_reviews` and `current_vector_index`.  A
success is assigned the current index, which then advances; a failure
records `line_number + 1` and the rendered error, and does not advance. -/
def bulk_process (genId : Nat → String) (now : Nat) :
    Nat → List ReviewData → Nat →
      List ReviewMetadata × List BulkError × Nat
  | _, [], current_vector_index => ([], [], current_vector_index)
  | line_number, d :: rest, current_vector_index =>
    match process_single_review d (genId line_number) now
        current_vector_index with
    | .ok metadata =>
      let (s, fl, fin) :=
        bulk_process genId now (line_number + 1) rest
          (current_vector_index + 1)
      (metadata :: s, fl, fin)
    | .error e =>
      let (s, fl, fin) :=
        bulk_process genId now (line_number + 1) rest current_vector_index
      (s,
       { line_number := line_number + 1
         error := e.display
         data := some d } :: fl,
       fin)

/-- A `serde_json::Value`: the JSON envelope of a bulk request.  Leaf
payloads that the dispatcher never inspects (numbers, object fields) are
kept abstract. -/
inductive JsonValue where
  | null
  | bool (b : Bool)
  | number (n : Int)
  | str (s : String)
  | arr (elems : List JsonValue)
  | obj (fields : List (String × JsonValue))

/-- The array branch of `parse_bulk_data`: deserialize each element in
order; the first element `serde_json::from_value` rejects aborts the whole
call with `Serialization`.  `from_value` is the serde deserializer,
abstracted as a parameter. -/
def parse_array (from_value : JsonValue → Except String ReviewData) :
    List JsonValue → Except AppError (List ReviewData)
  | [] => .ok []
  | v :: rest =>
    match from_value v with
    | .ok review =>
      match parse_array from_value rest with
      | .ok rs => .ok (review :: rs)
      | .error e => .error e
    | .error e => .error (.Serialization e)

/-- The string (JSONL) branch of `parse_bulk_data`: enumerate the lines
with `line_num` starting at the given offset, trim each, skip blank lines,
and abort with `Validation` naming `line_<line_num+1>` on the first
non-blank line that `serde_json::from_str` rejects. -/
def parse_jsonl (from_str : String → Except String ReviewData) :
    Nat → List String → Except AppError (List ReviewData)
  | _, [] => .ok []
  | line_num, line :: rest =>
    let line' := rustTrim line
    if line'.isEmpty then
      parse_jsonl from_str (line_num + 1) rest
    else
      match from_str line' with
      | .ok review =>
        match parse_jsonl from_str (line_num + 1) rest with
        | .ok rs => .ok (review :: rs)
        | .error e => .error e
      | .error e =>
        .error (.Validation (.InvalidValue
          ("line_" ++ toString (line_num + 1)) ("Invalid JSON: " ++ e)))

/-- The physical lines of a JSONL string, as split by Rust
`str::lines` on `\n`.  (`lines` also drops a final empty segment and a
trailing `\r`; both differences are erased by the trim-and-skip
of `parse_jsonl`, which trims every line before use.) -/
def rustLines (s : String) : List String :=
  s.splitOn "\n"

/-- `main.rs` `parse_bulk_data`: dispatch on the JSON envelope shape.
Array → `parse_array`; object → a singleton batch when `from_value`
accepts it, else `Serialization`; string → `parse_jsonl` over its lines;
anything else → `Validation`. -/
def parse_bulk_data (from_value : JsonValue → Except String ReviewData)
    (from_str : String → Except String ReviewData) :
    JsonValue → Except AppError (List ReviewData)
  | .arr reviews => parse_array from_value reviews
  | .obj fields =>
    match from_value (.obj fields) with
    | .ok review => .ok [review]
    | .error e => .error (.Serialization e)
  | .str jsonl_content => parse_jsonl from_str 0 (rustLines jsonl_content)
  | _ => .error (.Validation (.InvalidValue "bulk_data"
      "Expected JSON array, object, or JSONL string"))

/-- `usize::MAX + 1`. -/
def USIZE : Nat := 2 ^ 64

/-- The `usize` subtraction `n - 1` of release builds: wraps to
`2^64 - 1` at `n = 0`. -/
def usize_sub_one (n : Nat) : Nat :=
  (n + (USIZE - 1)) % USIZE

/-- `main.rs` `bulk_upload`: acquire the lock, read
`starting_vector_index = count_reviews`, parse the envelope, reject an
empty batch, run the per-item loop, append the successes in one batch, and
build the response with `ending_vector_index = current_vector_index - 1`
(a wrapping `usize` subtraction).  Ids for the per-item `Uuid::new_v4()`
come from `genId`, applied to the item's 0-based line number. -/
def bulk_upload (from_value : JsonValue → Except String ReviewData)
    (from_str : String → Except String ReviewData) (genId : Nat → String)
    (now : Nat) (bulk_data : JsonValue) (f : LogFile) :
    Except AppError (BulkResponse × LogFile) :=
  let starting_vector_index := count_reviews f
  match parse_bulk_data from_value from_str bulk_data with
  | .error e => .error e
  | .ok review_data_list =>
    if review_data_list.isEmpty then
      .error (.Validation (.InvalidValue "reviews"
        "No valid reviews found in bulk data"))
    else
      let (successful_reviews, failed_reviews, current_vector_index) :=
        bulk_process genId now 0 review_data_list starting_vector_index
      let f2 :=
        if successful_reviews.isEmpty then f
        else append_reviews f successful_reviews
      .ok
        ({ result :=
             { total_processed := review_data_list.length
               successful := successful_reviews.length
               failed := failed_reviews }
           starting_vector_index := starting_vector_index
           ending_vector_index := usize_sub_one current_vector_index },
         f2)

/-! ### Search (`main.rs` `search_reviews`, `perform_text_search`) -/

/-- `models.rs` `SearchRequest`. -/
structure SearchRequest where
  query : String
  limit : Option Nat
deriving Repr, DecidableEq

/-- `models.rs` `SearchRequest::validate`. -/
def SearchRequest.validate (r : SearchRequest) :
    Except ValidationError Unit :=
  if (rustTrim r.query).isEmpty then
    .error (.MissingField "query")
  else if rustLen r.query > 500 then
    .error (.TooLong "query" 500)
  else
    match r.limit with
    | some limit =>
      if limit = 0 || limit > 100 then
        .error (.InvalidValue "limit" "must be between 1 and 100")
      else .ok ()
    | none => .ok ()

/-- `models.rs` `SearchRequest::get_limit`: the limit, defaulting to 10. -/
def SearchRequest.get_limit (r : SearchRequest) : Nat :=
  r.limit.getD 10

/-- `models.rs` `SearchResult`, with the `f32` similarity score modelled
as a rational. -/
structure SearchResult where
  review : ReviewMetadata
  similarity_score : ℚ
deriving Repr, DecidableEq

/-- The tokenization at the head of `perform_text_search`:
`query.to_lowercase()` then `split_whitespace()` (Unicode-whitespace
split, empty pieces dropped).  Character-wise lowercasing stands in for
Rust's Unicode `to_lowercase`; no claim depends on the case mapping. -/
def query_words (query : String) : List String :=
  ((query.map Char.toLower).split rustIsWhitespace).filter
    (fun w => !w.isEmpty)

/-- The comparator of `scored_reviews.sort_by(|a, b|
b.1.partial_cmp(&a.1).unwrap_or(Equal))`: `a` may precede `b` exactly when
`b`'s score is at most `a`'s (descending; the `unwrap_or` is unreachable
for the total order on `ℚ`). -/
def score_desc (a b : ReviewMetadata × ℚ) : Bool :=
  decide (b.2 ≤ a.2)

/-- The score-and-filter stage of `perform_text_search`: pair every record
with its score and keep those with score strictly above zero, in corpus
order.  `scorer` abstracts `calculate_text_similarity(query, ..)` (an
`f32`-valued pure function of the record; the ranking claims hold for
every score assignment). -/
def scored_reviews (scorer : ReviewMetadata → ℚ)
    (reviews : List ReviewMetadata) : List (ReviewMetadata × ℚ) :=
  (reviews.map (fun review => (review, scorer review))).filter
    (fun p => decide (0 < p.2))

/-- The sort stage of `perform_text_search`: Rust `slice::sort_by` is a
stable merge sort; `List.mergeSort` with the same comparator models it. -/
def sort_scored (l : List (ReviewMetadata × ℚ)) :
    List (ReviewMetadata × ℚ) :=
  l.mergeSort score_desc

/-- `main.rs` `perform_text_search`: empty token list short-circuits to no
hits; otherwise score, filter, stable-sort descending, take `limit`, and
wrap into `SearchResult`s. -/
def perform_text_search (scorer : ReviewMetadata → ℚ) (query : String)
    (reviews : List ReviewMetadata) (limit : Nat) : List SearchResult :=
  if (query_words query).isEmpty then []
  else
    ((sort_scored (scored_reviews scorer reviews)).take limit).map
      (fun p => { review := p.1, similarity_score := p.2 })

/-- `main.rs` `search_reviews`: validate the request, `read_all_reviews`,
then `perform_text_search` with `get_limit`. -/
def search_reviews (scorer : ReviewMetadata → ℚ) (req : SearchRequest)
    (f : LogFile) : Except AppError (List SearchResult) :=
  match req.validate with
  | .error e => .error (.Validation e)
  | .ok _ =>
    match read_all_reviews f with
    | .error e => .error e
    | .ok all_reviews =>
      .ok (perform_text_search scorer req.query all_reviews req.get_limit)

/-! ### Shared concrete data and helper lemmas -/

/-- A review input that passes validation (spec scenario 1). -/
def great : ReviewData :=
  { title := "Great product!"
    body := "This product exceeded my expectations. Great quality and fast delivery."
    product_id := "prod_123"
    rating := 5 }

/-- A review input rejected by validation: 2-byte title. -/
def bad_title : ReviewData :=
  { title := "ab"
    body := "0123456789"
    product_id := "p"
    rating := 5 }

/-- A concrete persisted record, for log-file scenarios. -/
def sample_meta : ReviewMetadata :=
  { id := "rev-1"
    title := "Great product!"
    body := "This is a test review body."
    product_id := "prod_123"
    rating := 5
    timestamp := 0
    vector_index := 0 }

theorem count_reviews_append (f g : LogFile) :
    count_reviews (f ++ g) = count_reviews f + count_reviews g := by
  induction f with
  | nil => simp [count_reviews]
  | cons l rest ih => simp [count_reviews, ih]; omega

theorem count_reviews_records (rs : List ReviewMetadata) :
    count_reviews (rs.map .record) = rs.length := by
  induction rs with
  | nil => simp [count_reviews]
  | cons r rest ih => simp [count_reviews, ih, LogLine.nonBlank]; omega

theorem count_reviews_eq_filter (f : LogFile) :
    count_reviews f = (f.filter LogLine.nonBlank).length := by
  induction f with
  | nil => simp [count_reviews]
  | cons l rest ih =>
    cases l <;> simp [count_reviews, List.filter, LogLine.nonBlank, ih] <;>
      omega

theorem get_review_by_index_records_some (rs : List ReviewMetadata)
    (i : Nat) (r : ReviewMetadata) (hr : rs[i]? = some r) :
    get_review_by_index (rs.map .record) i = .ok (some r) := by
  induction rs generalizing i with
  | nil => simp at hr
  | cons a rest ih =>
    cases i with
    | zero =>
      simp only [List.getElem?_cons_zero, Option.some.injEq] at hr
      simp [get_review_by_index, hr]
    | succ j =>
      simp only [List.getElem?_cons_succ] at hr
      simp only [List.map_cons, get_review_by_index]
      exact ih j hr

theorem get_review_by_index_records_none (rs : List ReviewMetadata)
    (i : Nat) (hi : rs.length ≤ i) :
    get_review_by_index (rs.map .record) i = .ok none := by
  induction rs generalizing i with
  | nil => simp [get_review_by_index]
  | cons a rest ih =>
    cases i with
    | zero => simp at hi
    | succ j =>
      simp only [List.map_cons, get_review_by_index]
      exact ih j (by simpa using hi)

/-! ### C1 -/

/-- C1 (claim): within a single insert the Lock is acquired before
`base = Log.count()` and held across count and append.  The code the claim
describes does the opposite: the trace of `create_review` on a valid input
reads the count (and builds the record) first and only then acquires the
lock, so the `vector_index` is computed while other writers can run. -/
theorem c1_count_read_precedes_lock :
    (create_review great "id-1" 7 []).map (fun out => out.2.2)
      = .ok [WriteEvent.countRead, WriteEvent.lockAcquire,
             WriteEvent.appendLine, WriteEvent.lockRelease] := by
  decide

/-! ### C3 -/

/-- C3 (counterexample): the validator does not measure the title in code
points after trimming.  The title of `" ab"` trims to 2 code points, so the
claim demands a `TooShort` rejection, yet `validate` accepts the input
because the untrimmed byte length is 3. -/
theorem c3_counterexample :
    (ReviewData.mk " ab" "0123456789" "p" 5).validate = .ok () ∧
    (rustTrim " ab").length = 2 := by
  decide

/-- C3 (amended): for inputs whose body, product_id and rating pass their
own checks, the validator accepts the title exactly when its trimmed form
is non-empty and its untrimmed UTF-8 byte length lies in [3, 200]; a
non-blank title under 3 bytes is rejected `TooShort` and one over 200
bytes is rejected `TooLong`.  The bounds are bytes of the untrimmed title,
not code points of the trimmed title. -/
theorem c3_title_accepted_iff_byte_length (d : ReviewData)
    (hbt : (rustTrim d.body).isEmpty = false)
    (hpt : (rustTrim d.product_id).isEmpty = false)
    (hb1 : 10 ≤ rustLen d.body) (hb2 : rustLen d.body ≤ 2000)
    (hp1 : rustLen d.product_id ≤ 100)
    (hr1 : 1 ≤ d.rating) (hr2 : d.rating ≤ 5) :
    (d.validate = .ok () ↔
      ((rustTrim d.title).isEmpty = false ∧
        3 ≤ rustLen d.title ∧ rustLen d.title ≤ 200)) ∧
    ((rustTrim d.title).isEmpty = false → rustLen d.title < 3 →
      d.validate = .error (.TooShort "title" 3)) ∧
    ((rustTrim d.title).isEmpty = false → 200 < rustLen d.title →
      d.validate = .error (.TooLong "title" 200)) := by
  unfold ReviewData.validate
  split_ifs <;> simp_all <;> omega

/-- C3 witness: instantiation at the accepted 3-byte title `"abc"`. -/
theorem c3_title_accepted_iff_byte_length_witness :
    ((ReviewData.mk "abc" "0123456789" "p" 5).validate = .ok () ↔
      ((rustTrim "abc").isEmpty = false ∧
        3 ≤ rustLen "abc" ∧ rustLen "abc" ≤ 200)) ∧
    ((rustTrim "abc").isEmpty = false → rustLen "abc" < 3 →
      (ReviewData.mk "abc" "0123456789" "p" 5).validate
        = .error (.TooShort "title" 3)) ∧
    ((rustTrim "abc").isEmpty = false → 200 < rustLen "abc" →
      (ReviewData.mk "abc" "0123456789" "p" 5).validate
        = .error (.TooLong "title" 200)) :=
  c3_title_accepted_iff_byte_length (ReviewData.mk "abc" "0123456789" "p" 5)
    (by decide) (by decide) (by decide) (by decide) (by decide) (by decide)
    (by decide)

/-! ### C4 -/

theorem create_review_ok_of_valid (d : ReviewData) (id : String) (now : Nat)
    (f : LogFile) (hv : d.validate = .ok ()) :
    create_review d id now f = .ok
      ({ review_id := id
         vector_index := count_reviews f
         timestamp := now },
       f ++ [.record
         { id := id
           title := d.title
           body := d.body
           product_id := d.product_id
           rating := d.rating
           timestamp := now
           vector_index := count_reviews f }],
       [.countRead, .lockAcquire, .appendLine, .lockRelease]) := by
  simp [create_review, ReviewData.to_metadata, hv, append_review]

theorem run_single_inserts_struct :
    ∀ (inputs : List (ReviewData × String × Nat)) (f final : LogFile),
      run_single_inserts inputs f = .ok final →
      ∃ recs : List ReviewMetadata,
        final = f ++ recs.map .record ∧
        recs.length = inputs.length ∧
        ∀ j m, recs[j]? = some m → m.vector_index = count_reviews f + j := by
  intro inputs
  induction inputs with
  | nil =>
    intro f final h
    simp only [run_single_inserts] at h
    injection h with h
    exact ⟨[], by simp [h], rfl, fun j m hm => by simp at hm⟩
  | cons p rest ih =>
    obtain ⟨d, id, now⟩ := p
    intro f final h
    cases hv : d.validate with
    | error e => simp [run_single_inserts, create_review, hv] at h
    | ok u =>
      cases u
      rw [run_single_inserts, create_review_ok_of_valid d id now f hv] at h
      obtain ⟨recs, hfin, hlen, hidx⟩ := ih _ final h
      refine ⟨{ id := id
                title := d.title
                body := d.body
                product_id := d.product_id
                rating := d.rating
                timestamp := now
                vector_index := count_reviews f } :: recs, ?_, ?_, ?_⟩
      · simpa using hfin
      · simpa using hlen
      · intro j m hm
        cases j with
        | zero =>
          simp only [List.getElem?_cons_zero, Option.some.injEq] at hm
          simp [← hm]
        | succ k =>
          simp only [List.getElem?_cons_succ] at hm
          have h2 := hidx k m hm
          rw [count_reviews_append] at h2
          simp [count_reviews, LogLine.nonBlank] at h2
          omega

/-- C4: after N successful single inserts on an initially empty store,
`count_reviews` equals N and for every position `i < N` the stored record
at line `i` has `vector_index = i`. -/
theorem c4_single_inserts_contiguous
    (inputs : List (ReviewData × String × Nat)) (final : LogFile)
    (h : run_single_inserts inputs [] = .ok final) :
    count_reviews final = inputs.length ∧
    ∀ i, i < inputs.length → ∃ r : ReviewMetadata,
      get_review_by_index final i = .ok (some r) ∧ r.vector_index = i := by
  obtain ⟨recs, hfin, hlen, hidx⟩ := run_single_inserts_struct inputs [] final h
  simp only [List.nil_append] at hfin
  subst hfin
  refine ⟨by rw [count_reviews_records, hlen], fun i hi => ?_⟩
  have hi' : i < recs.length := hlen ▸ hi
  have hsome : recs[i]? = some recs[i] := List.getElem?_eq_getElem hi'
  refine ⟨recs[i], get_review_by_index_records_some recs i recs[i] hsome, ?_⟩
  simpa [count_reviews] using hidx i recs[i] hsome

/-- The log produced by two single inserts of `great`. -/
def c4_log : LogFile :=
  [.record
    { id := "id-0"
      title := great.title
      body := great.body
      product_id := great.product_id
      rating := great.rating
      timestamp := 0
      vector_index := 0 },
   .record
    { id := "id-1"
      title := great.title
      body := great.body
      product_id := great.product_id
      rating := great.rating
      timestamp := 1
      vector_index := 1 }]

/-- C4 witness: two concrete inserts on the empty store. -/
theorem c4_single_inserts_contiguous_witness :
    count_reviews c4_log = 2 ∧
    ∀ i, i < 2 → ∃ r : ReviewMetadata,
      get_review_by_index c4_log i = .ok (some r) ∧ r.vector_index = i :=
  c4_single_inserts_contiguous [(great, "id-0", 0), (great, "id-1", 1)]
    c4_log (by decide)

/-! ### C5 -/

theorem process_single_review_of_valid (d : ReviewData) (id : String)
    (now v : Nat) (hv : d.validate = .ok ()) :
    process_single_review d id now v = .ok
      { id := id
        title := d.title
        body := d.body
        product_id := d.product_id
        rating := d.rating
        timestamp := now
        vector_index := v } := by
  simp [process_single_review, ReviewData.to_metadata, hv]

theorem bulk_process_spec (genId : Nat → String) (now : Nat) :
    ∀ (list : List ReviewData) (ln current : Nat),
      (bulk_process genId now ln list current).2.2
          = current + (bulk_process genId now ln list current).1.length ∧
      (bulk_process genId now ln list current).1.length
          + (bulk_process genId now ln list current).2.1.length
          = list.length ∧
      ∀ j m, (bulk_process genId now ln list current).1[j]? = some m →
        m.vector_index = current + j := by
  intro list
  induction list with
  | nil =>
    intro ln current
    refine ⟨by simp [bulk_process], by simp [bulk_process], ?_⟩
    intro j m hm
    simp [bulk_process] at hm
  | cons d rest ih =>
    intro ln current
    cases hp : process_single_review d (genId ln) now current with
    | ok metadata =>
      have hm : metadata.vector_index = current := by
        cases hv : d.validate with
        | error e =>
          rw [show process_single_review d (genId ln) now current
              = .error (.Validation e) by
            simp [process_single_review, hv]] at hp
          exact absurd hp (by simp)
        | ok u =>
          cases u
          rw [process_single_review_of_valid d (genId ln) now current hv]
            at hp
          injection hp with hp
          rw [← hp]
      have heq : bulk_process genId now ln (d :: rest) current
          = (metadata ::
              (bulk_process genId now (ln + 1) rest (current + 1)).1,
             (bulk_process genId now (ln + 1) rest (current + 1)).2) := by
        simp [bulk_process, hp]
      obtain ⟨ih1, ih2, ih3⟩ := ih (ln + 1) (current + 1)
      rw [heq]
      refine ⟨?_, ?_, ?_⟩
      · simp only [List.length_cons]
        omega
      · simp only [List.length_cons]
        omega
      · intro j m hj
        cases j with
        | zero =>
          simp only [List.getElem?_cons_zero, Option.some.injEq] at hj
          rw [← hj, hm]
          omega
        | succ k =>
          simp only [List.getElem?_cons_succ] at hj
          have := ih3 k m hj
          omega
    | error e =>
      have heq : bulk_process genId now ln (d :: rest) current
          = ((bulk_process genId now (ln + 1) rest current).1,
             { line_number := ln + 1
               error := e.display
               data := some d }
               :: (bulk_process genId now (ln + 1) rest current).2.1,
             (bulk_process genId now (ln + 1) rest current).2.2) := by
        simp [bulk_process, hp]
      obtain ⟨ih1, ih2, ih3⟩ := ih (ln + 1) current
      rw [heq]
      refine ⟨?_, ?_, ?_⟩
      · simpa using ih1
      · simp only [List.length_cons]
        omega
      · intro j m hj
        exact ih3 j m hj

/-- C5: in the bulk loop started at `base`, failed items never consume a
position: the final counter is `base` plus the number of successes, and
the j-th successful item (0-based, submission order) is assigned
`vector_index = base + j`. -/
theorem c5_failed_items_consume_no_position (genId : Nat → String)
    (now : Nat) (review_data_list : List ReviewData) (base : Nat) :
    (bulk_process genId now 0 review_data_list base).2.2
        = base + (bulk_process genId now 0 review_data_list base).1.length ∧
    ∀ j m, (bulk_process genId now 0 review_data_list base).1[j]? = some m →
      m.vector_index = base + j :=
  ⟨(bulk_process_spec genId now review_data_list 0 base).1,
   (bulk_process_spec genId now review_data_list 0 base).2.2⟩

/-- Per-item id generator for concrete bulk runs. -/
def genId0 : Nat → String := fun n => "bulk-" ++ toString n

/-- C5 witness: batch `[bad_title, great, great]` at base 5: the second
success (j = 1) sits at position 6 even though a failure is interspersed. -/
theorem c5_failed_items_consume_no_position_witness :
    (bulk_process genId0 0 0 [bad_title, great, great] 5).2.2
        = 5 + (bulk_process genId0 0 0 [bad_title, great, great] 5).1.length ∧
    ∃ m : ReviewMetadata,
      (bulk_process genId0 0 0 [bad_title, great, great] 5).1[1]? = some m ∧
      m.vector_index = 5 + 1 := by
  have h := c5_failed_items_consume_no_position genId0 0
    [bad_title, great, great] 5
  refine ⟨h.1, ?_⟩
  have hm : (bulk_process genId0 0 0 [bad_title, great, great] 5).1[1]?
      = some { id := "bulk-2"
               title := great.title
               body := great.body
               product_id := great.product_id
               rating := great.rating
               timestamp := 0
               vector_index := 6 } := by decide
  exact ⟨_, hm, h.2 1 _ hm⟩

/-! ### C2 and C9 -/

/-- A `serde_json::from_value` oracle under which every element
deserializes to `bad_title` (structurally well-formed, semantically
invalid). -/
def fv_bad : JsonValue → Except String ReviewData := fun _ => .ok bad_title

/-- A `serde_json::from_str` oracle for branches the concrete runs never
reach. -/
def fs_stub : String → Except String ReviewData := fun _ => .error "unused"

/-- C2 (failing run): a bulk insert of one structurally valid but
semantically invalid item against an empty store (k = 0 successes, m = 1
failure) returns a report whose `ending_vector_index` is the wrapped
`0 - 1 = 2^64 - 1`, so `ending − starting + 1 = k` fails over the
integers (in a debug build the same subtraction panics instead). -/
theorem c2_report_equation_fails_on_all_failed_batch :
    bulk_upload fv_bad fs_stub genId0 0 (.obj []) []
      = .ok
        ({ result :=
             { total_processed := 1
               successful := 0
               failed := [{ line_number := 1
                            error := "Validation error: Field too short: title must be at least 3 characters"
                            data := some bad_title }] }
           starting_vector_index := 0
           ending_vector_index := 2 ^ 64 - 1 }, []) ∧
    ¬ ((2 ^ 64 - 1 : ℤ) - 0 + 1 = 0) := by
  exact ⟨by decide, by decide⟩

/-- C9 (failing run): when every item of a non-empty parsed batch fails
validation against an empty store, the loop leaves
`current_vector_index = 0`, so the `usize` subtraction building
`ending_vector_index` underflows (wrapping to `2^64 - 1` in release,
panicking in debug) — refuting the claim that it is always at least 1 at
the response-building step. -/
theorem c9_current_vector_index_zero_at_response :
    (bulk_process genId0 0 0 [bad_title, bad_title] 0).2.2 = 0 ∧
    bulk_upload fv_bad fs_stub genId0 0 (.arr [.null, .null]) []
      = .ok
        ({ result :=
             { total_processed := 2
               successful := 0
               failed :=
                 [{ line_number := 1
                    error := "Validation error: Field too short: title must be at least 3 characters"
                    data := some bad_title },
                  { line_number := 2
                    error := "Validation error: Field too short: title must be at least 3 characters"
                    data := some bad_title }] }
           starting_vector_index := 0
           ending_vector_index := 2 ^ 64 - 1 }, []) := by
  exact ⟨by decide, by decide⟩

/-! ### C6 -/

/-- C6 (counterexample): `get` does not address positions among the
non-blank lines.  On a file whose line 0 is blank and whose line 1 holds a
record, `count` is 1, so the claim requires `get(0)` to return the record
(the non-blank ordinal 0) and to be absent exactly for `i ≥ 1`; the code
instead returns absent at index 0 and the record at index 1. -/
theorem c6_counterexample :
    count_reviews [LogLine.blank, LogLine.record sample_meta] = 1 ∧
    get_review_by_index [LogLine.blank, LogLine.record sample_meta] 0
      = .ok none ∧
    get_review_by_index [LogLine.blank, LogLine.record sample_meta] 1
      = .ok (some sample_meta) := by
  decide

/-- C6 (amended): `get(i)` addresses raw physical lines (blank lines
consume indices too; a corrupt line yields an error rather than absence).
On a file all of whose lines are records — as produced by appends alone —
raw positions and non-blank ordinals coincide: `get(i)` returns the i-th
record and is absent exactly when `i ≥ count()`. -/
theorem c6_get_addresses_raw_lines (rs : List ReviewMetadata) (i : Nat) :
    (∀ r, rs[i]? = some r →
      get_review_by_index (rs.map .record) i = .ok (some r)) ∧
    (rs.length ≤ i → get_review_by_index (rs.map .record) i = .ok none) ∧
    count_reviews (rs.map .record) = rs.length :=
  ⟨fun r hr => get_review_by_index_records_some rs i r hr,
   fun hi => get_review_by_index_records_none rs i hi,
   count_reviews_records rs⟩

/-- C6 witness: an all-records file of one line. -/
theorem c6_get_addresses_raw_lines_witness :
    get_review_by_index [LogLine.record sample_meta] 0
      = .ok (some sample_meta) ∧
    get_review_by_index [LogLine.record sample_meta] 3 = .ok none :=
  ⟨(c6_get_addresses_raw_lines [sample_meta] 0).1 sample_meta (by decide),
   (c6_get_addresses_raw_lines [sample_meta] 3).2.1 (by decide)⟩

/-! ### C10 -/

theorem read_all_reviews_error_of_corrupt :
    ∀ (st : LogFile) (raw : String), LogLine.corrupt raw ∈ st →
      ∃ msg, read_all_reviews st = .error (.Serialization msg) := by
  intro st
  induction st with
  | nil =>
    intro raw h
    simp at h
  | cons l rest ih =>
    intro raw h
    cases l with
    | blank =>
      have hmem : LogLine.corrupt raw ∈ rest := by
        rcases List.mem_cons.mp h with h1 | h1
        · exact absurd h1 (by simp)
        · exact h1
      obtain ⟨msg, hmsg⟩ := ih raw hmem
      exact ⟨msg, by simp [read_all_reviews, hmsg]⟩
    | record r =>
      have hmem : LogLine.corrupt raw ∈ rest := by
        rcases List.mem_cons.mp h with h1 | h1
        · exact absurd h1 (by simp)
        · exact h1
      obtain ⟨msg, hmsg⟩ := ih raw hmem
      exact ⟨msg, by simp [read_all_reviews, hmsg]⟩
    | corrupt raw0 =>
      exact ⟨"invalid JSON: " ++ raw0, by simp [read_all_reviews]⟩

/-- C10: `count_reviews` counts every non-blank line, parseable or not,
while `read_all_reviews` fails with `Serialization` whenever some
non-blank line is corrupt; hence on a log holding a corrupt line every
search fails, yet counting succeeds and a subsequent single insert goes
through, with the corrupt line consuming a position below the new
record's `vector_index = count`. -/
theorem c10_count_tolerates_corrupt_line (st : LogFile) (raw : String)
    (hmem : LogLine.corrupt raw ∈ st) :
    count_reviews st = (st.filter LogLine.nonBlank).length ∧
    (∃ msg, read_all_reviews st = .error (.Serialization msg)) ∧
    (∀ (scorer : ReviewMetadata → ℚ) (req : SearchRequest),
      req.validate = .ok () →
      ∃ msg, search_reviews scorer req st = .error (.Serialization msg)) ∧
    (∀ (d : ReviewData) (id : String) (now : Nat), d.validate = .ok () →
      ∃ resp f2 ev, create_review d id now st = .ok (resp, f2, ev) ∧
        resp.vector_index = count_reviews st) := by
  refine ⟨count_reviews_eq_filter st,
    read_all_reviews_error_of_corrupt st raw hmem, ?_, ?_⟩
  · intro scorer req hreq
    obtain ⟨msg, hmsg⟩ := read_all_reviews_error_of_corrupt st raw hmem
    exact ⟨msg, by simp [search_reviews, hreq, hmsg]⟩
  · intro d id now hv
    exact ⟨_, _, _, create_review_ok_of_valid d id now st hv, rfl⟩

/-- C10 witness: a log of one corrupt line; a valid search request and a
valid insert against it. -/
theorem c10_count_tolerates_corrupt_line_witness :
    count_reviews [LogLine.corrupt "not json"]
        = ([LogLine.corrupt "not json"].filter LogLine.nonBlank).length ∧
    (∃ msg, read_all_reviews [LogLine.corrupt "not json"]
        = .error (.Serialization msg)) ∧
    (∃ msg, search_reviews (fun _ => 0) ⟨"camera", none⟩
        [LogLine.corrupt "not json"] = .error (.Serialization msg)) ∧
    (∃ resp f2 ev, create_review great "id-9" 3 [LogLine.corrupt "not json"]
        = .ok (resp, f2, ev) ∧
      resp.vector_index = count_reviews [LogLine.corrupt "not json"]) := by
  have h := c10_count_tolerates_corrupt_line [LogLine.corrupt "not json"]
    "not json" (by decide)
  exact ⟨h.1, h.2.1, h.2.2.1 (fun _ => 0) ⟨"camera", none⟩ (by decide),
    h.2.2.2 great "id-9" 3 (by decide)⟩

/-! ### C8 -/

theorem parse_array_error_of_mem
    (from_value : JsonValue → Except String ReviewData) :
    ∀ elems, (∃ v ∈ elems, ∃ e, from_value v = .error e) →
      ∃ msg, parse_array from_value elems = .error (.Serialization msg) := by
  intro elems
  induction elems with
  | nil =>
    rintro ⟨v, hv, _⟩
    simp at hv
  | cons a rest ih =>
    rintro ⟨v, hv, e, he⟩
    cases ha : from_value a with
    | error e0 => exact ⟨e0, by simp [parse_array, ha]⟩
    | ok r =>
      have hvrest : v ∈ rest := by
        rcases List.mem_cons.mp hv with h1 | h1
        · subst h1
          rw [ha] at he
          exact absurd he (by simp)
        · exact h1
      obtain ⟨msg, hmsg⟩ := ih ⟨v, hvrest, e, he⟩
      exact ⟨msg, by simp [parse_array, ha, hmsg]⟩

theorem parse_array_ok_of_forall
    (from_value : JsonValue → Except String ReviewData) :
    ∀ elems, (∀ v ∈ elems, ∃ r, from_value v = .ok r) →
      ∃ rs, parse_array from_value elems = .ok rs ∧
        rs.length = elems.length := by
  intro elems
  induction elems with
  | nil =>
    intro _
    exact ⟨[], by simp [parse_array], rfl⟩
  | cons a rest ih =>
    intro hall
    obtain ⟨r, hr⟩ := hall a (List.mem_cons_self a rest)
    obtain ⟨rs, hrs, hlen⟩ :=
      ih (fun v hv => hall v (List.mem_cons_of_mem a hv))
    exact ⟨r :: rs, by simp [parse_array, hr, hrs], by simp [hlen]⟩

theorem parse_jsonl_all_blank
    (from_str : String → Except String ReviewData) :
    ∀ ls ln, (∀ l ∈ ls, (rustTrim l).isEmpty = true) →
      parse_jsonl from_str ln ls = .ok [] := by
  intro ls
  induction ls with
  | nil =>
    intro ln _
    simp [parse_jsonl]
  | cons a rest ih =>
    intro ln h
    have ha := h a (List.mem_cons_self a rest)
    simp only [parse_jsonl, ha, if_true]
    exact ih (ln + 1) (fun l hl => h l (List.mem_cons_of_mem a hl))

theorem parse_jsonl_abort_at_first_bad_line
    (from_str : String → Except String ReviewData) :
    ∀ (pre : List String) (ln : Nat) (line : String) (rest : List String)
      (e : String),
      (∀ l ∈ pre, (rustTrim l).isEmpty = true ∨
        ∃ r, from_str (rustTrim l) = .ok r) →
      (rustTrim line).isEmpty = false →
      from_str (rustTrim line) = .error e →
      parse_jsonl from_str ln (pre ++ line :: rest)
        = .error (.Validation (.InvalidValue
            ("line_" ++ toString (ln + pre.length + 1))
            ("Invalid JSON: " ++ e))) := by
  intro pre
  induction pre with
  | nil =>
    intro ln line rest e _ hnb he
    simp [parse_jsonl, hnb, he]
  | cons a pre ih =>
    intro ln line rest e hpre hnb he
    have hrec := ih (ln + 1) line rest e
      (fun l hl => hpre l (List.mem_cons_of_mem a hl)) hnb he
    have harith : ln + 1 + pre.length + 1 = ln + (a :: pre).length + 1 := by
      simp [List.length_cons]
      omega
    rw [harith] at hrec
    cases hblank : (rustTrim a).isEmpty with
    | true =>
      simp only [List.cons_append, parse_jsonl, hblank, if_true]
      exact hrec
    | false =>
      rcases hpre a (List.mem_cons_self a pre) with ha | ⟨r, hr⟩
      · rw [ha] at hblank
        exact absurd hblank (by simp)
      · simp only [List.cons_append, parse_jsonl, hblank, Bool.false_eq_true,
          if_false, hr]
        rw [show pre.append (line :: rest) = pre ++ line :: rest from rfl,
          hrec]

/-- C8: the Bulk Parser dispatches on the envelope shape.  Array: a
deserialization failure of any element aborts the whole call with
`Serialization`, and if every element deserializes the batch has one entry
per element.  String: the content is processed line by line, blank lines
are skipped (an all-blank content parses to the empty batch), and the
first non-blank line the deserializer rejects aborts with `Validation`
naming `line_<n>` (n the 1-based physical line number).  Object: a
one-element batch when it deserializes, `Serialization` otherwise.  Null,
booleans and numbers: `Validation`. -/
theorem c8_bulk_parser_dispatch
    (from_value : JsonValue → Except String ReviewData)
    (from_str : String → Except String ReviewData) :
    (∀ elems, (∃ v ∈ elems, ∃ e, from_value v = .error e) →
      ∃ msg, parse_bulk_data from_value from_str (.arr elems)
        = .error (.Serialization msg)) ∧
    (∀ elems, (∀ v ∈ elems, ∃ r, from_value v = .ok r) →
      ∃ rs, parse_bulk_data from_value from_str (.arr elems) = .ok rs ∧
        rs.length = elems.length) ∧
    (∀ content, parse_bulk_data from_value from_str (.str content)
        = parse_jsonl from_str 0 (rustLines content)) ∧
    (∀ ln (pre : List String) line rest e,
      (∀ l ∈ pre, (rustTrim l).isEmpty = true ∨
        ∃ r, from_str (rustTrim l) = .ok r) →
      (rustTrim line).isEmpty = false →
      from_str (rustTrim line) = .error e →
      parse_jsonl from_str ln (pre ++ line :: rest)
        = .error (.Validation (.InvalidValue
            ("line_" ++ toString (ln + pre.length + 1))
            ("Invalid JSON: " ++ e)))) ∧
    (∀ ls ln, (∀ l ∈ ls, (rustTrim l).isEmpty = true) →
      parse_jsonl from_str ln ls = .ok []) ∧
    (∀ fields r, from_value (.obj fields) = .ok r →
      parse_bulk_data from_value from_str (.obj fields) = .ok [r]) ∧
    (∀ fields e, from_value (.obj fields) = .error e →
      parse_bulk_data from_value from_str (.obj fields)
        = .error (.Serialization e)) ∧
    parse_bulk_data from_value from_str .null
      = .error (.Validation (.InvalidValue "bulk_data"
          "Expected JSON array, object, or JSONL string")) ∧
    (∀ b, parse_bulk_data from_value from_str (.bool b)
      = .error (.Validation (.InvalidValue "bulk_data"
          "Expected JSON array, object, or JSONL string"))) ∧
    (∀ n, parse_bulk_data from_value from_str (.number n)
      = .error (.Validation (.InvalidValue "bulk_data"
          "Expected JSON array, object, or JSONL string"))) := by
  refine ⟨?_, ?_, ?_, ?_, ?_, ?_, ?_, ?_, ?_, ?_⟩
  · intro elems h
    obtain ⟨msg, hmsg⟩ := parse_array_error_of_mem from_value elems h
    exact ⟨msg, by simpa [parse_bulk_data] using hmsg⟩
  · intro elems h
    obtain ⟨rs, hrs, hlen⟩ := parse_array_ok_of_forall from_value elems h
    exact ⟨rs, by simpa [parse_bulk_data] using hrs, hlen⟩
  · intro content
    rfl
  · intro ln pre line rest e hpre hnb he
    exact parse_jsonl_abort_at_first_bad_line from_str pre ln line rest e
      hpre hnb he
  · intro ls ln h
    exact parse_jsonl_all_blank from_str ls ln h
  · intro fields r h
    simp [parse_bulk_data, h]
  · intro fields e h
    simp [parse_bulk_data, h]
  · rfl
  · intro b
    rfl
  · intro n
    rfl

/-- A concrete `from_value` oracle: objects deserialize to `great`,
everything else is a type error. -/
def fv0 : JsonValue → Except String ReviewData := fun v =>
  match v with
  | .obj _ => .ok great
  | _ => .error "invalid type: expected struct ReviewData"

/-- A concrete `from_str` oracle: the line `"good"` deserializes to
`great`, everything else is rejected. -/
def fs0 : String → Except String ReviewData := fun s =>
  if s = "good" then .ok great else .error "expected value"

/-- C8 witness: each dispatch branch exercised at concrete payloads under
the concrete oracles `fv0` / `fs0`. -/
theorem c8_bulk_parser_dispatch_witness :
    (∃ msg, parse_bulk_data fv0 fs0 (.arr [.obj [], .null])
        = .error (.Serialization msg)) ∧
    (∃ rs, parse_bulk_data fv0 fs0 (.arr [.obj []]) = .ok rs ∧
      rs.length = [JsonValue.obj []].length) ∧
    (parse_bulk_data fv0 fs0 (.str " ") = parse_jsonl fs0 0 (rustLines " ")) ∧
    (parse_jsonl fs0 0 (["", "good"] ++ "bad" :: ["good"])
        = .error (.Validation (.InvalidValue
            ("line_" ++ toString (0 + ["", "good"].length + 1))
            ("Invalid JSON: " ++ "expected value")))) ∧
    (parse_jsonl fs0 5 [" "] = .ok []) ∧
    (parse_bulk_data fv0 fs0 (.obj []) = .ok [great]) ∧
    (parse_bulk_data fv0 fs0 .null
        = .error (.Validation (.InvalidValue "bulk_data"
            "Expected JSON array, object, or JSONL string"))) := by
  have h := c8_bulk_parser_dispatch fv0 fs0
  refine ⟨?_, ?_, h.2.2.1 " ", ?_, ?_, h.2.2.2.2.2.1 [] great rfl,
    h.2.2.2.2.2.2.2.1⟩
  · exact h.1 [.obj [], .null]
      ⟨.null, List.mem_cons_of_mem _ (List.mem_cons_self _ _),
       "invalid type: expected struct ReviewData", rfl⟩
  · refine h.2.1 [.obj []] ?_
    intro v hv
    rw [List.mem_singleton.mp hv]
    exact ⟨great, rfl⟩
  · refine h.2.2.2.1 0 ["", "good"] "bad" ["good"] "expected value" ?_
      (by decide) (by decide)
    intro l hl
    rcases List.mem_cons.mp hl with rfl | hl
    · left
      decide
    · rw [List.mem_singleton.mp hl]
      right
      exact ⟨great, by decide⟩
  · refine h.2.2.2.2.1 [" "] 5 ?_
    intro l hl
    rw [List.mem_singleton.mp hl]
    decide

/-! ### C7 -/

theorem score_desc_trans (a b c : ReviewMetadata × ℚ)
    (hab : score_desc a b) (hbc : score_desc b c) : score_desc a c := by
  simp only [score_desc, decide_eq_true_eq] at hab hbc ⊢
  exact le_trans hbc hab

theorem score_desc_total (a b : ReviewMetadata × ℚ) :
    score_desc a b || score_desc b a := by
  simp only [score_desc, Bool.or_eq_true, decide_eq_true_eq]
  exact le_total b.2 a.2

/-- C7: for every score assignment, query, corpus and limit, the ranking
returned by `perform_text_search` holds only hits of strictly positive
score, is sorted by descending score, has at most `limit` entries, and the
sort is stable: for every score value, the tied entries of the sorted list
appear in exactly their original corpus order. -/
theorem c7_scorer_ranking (scorer : ReviewMetadata → ℚ) (query : String)
    (reviews : List ReviewMetadata) (limit : Nat) :
    ((perform_text_search scorer query reviews limit).all
      (fun hit => decide (0 < hit.similarity_score)) = true) ∧
    List.Pairwise
      (fun a b : SearchResult => b.similarity_score ≤ a.similarity_score)
      (perform_text_search scorer query reviews limit) ∧
    (perform_text_search scorer query reviews limit).length ≤ limit ∧
    (∀ c : ℚ,
      (sort_scored (scored_reviews scorer reviews)).filter
          (fun p => decide (p.2 = c))
        = (scored_reviews scorer reviews).filter
          (fun p => decide (p.2 = c))) := by
  refine ⟨?_, ?_, ?_, ?_⟩
  · rw [List.all_eq_true]
    intro hit hmem
    unfold perform_text_search at hmem
    split at hmem
    · simp at hmem
    · obtain ⟨p, hp, hph⟩ := List.mem_map.mp hmem
      have hp2 : p ∈ sort_scored (scored_reviews scorer reviews) :=
        List.take_subset limit _ hp
      have hp3 : p ∈ scored_reviews scorer reviews := by
        unfold sort_scored at hp2
        exact List.mem_mergeSort.mp hp2
      have hp4 := (List.mem_filter.mp hp3).2
      rw [← hph]
      simpa using hp4
  · unfold perform_text_search
    split
    · exact List.Pairwise.nil
    · have hs : (sort_scored (scored_reviews scorer reviews)).Pairwise
          (fun a b => score_desc a b = true) := by
        unfold sort_scored
        exact List.sorted_mergeSort score_desc_trans score_desc_total _
      have ht := List.Pairwise.sublist (List.take_sublist limit _) hs
      rw [List.pairwise_map]
      exact ht.imp (fun h => of_decide_eq_true h)
  · unfold perform_text_search
    split
    · simp
    · rw [List.length_map]
      exact le_trans (le_of_eq (List.length_take _ _)) (min_le_left _ _)
  · intro c
    unfold sort_scored
    have hsub : List.Sublist
        ((scored_reviews scorer reviews).filter (fun p => decide (p.2 = c)))
        (scored_reviews scorer reviews) :=
      List.filter_sublist _
    have hpw : ((scored_reviews scorer reviews).filter
        (fun p => decide (p.2 = c))).Pairwise
          (fun a b => score_desc a b = true) := by
      refine List.pairwise_of_forall_mem_list ?_
      intro a ha b hb
      have ha2 := of_decide_eq_true (List.mem_filter.mp ha).2
      have hb2 := of_decide_eq_true (List.mem_filter.mp hb).2
      simp [score_desc, ha2, hb2]
    have h1 : List.Sublist
        ((scored_reviews scorer reviews).filter (fun p => decide (p.2 = c)))
        ((scored_reviews scorer reviews).mergeSort score_desc) :=
      List.sublist_mergeSort score_desc_trans score_desc_total hpw hsub
    have h2 := h1.filter (fun p => decide (p.2 = c))
    rw [List.filter_filter] at h2
    have h3 : ((scored_reviews scorer reviews).filter
        (fun p => decide (p.2 = c) && decide (p.2 = c)))
        = (scored_reviews scorer reviews).filter
          (fun p => decide (p.2 = c)) := by
      simp
    rw [h3] at h2
    have hlen : ((scored_reviews scorer reviews).filter
          (fun p => decide (p.2 = c))).length
        = (((scored_reviews scorer reviews).mergeSort score_desc).filter
          (fun p => decide (p.2 = c))).length := by
      rw [← List.countP_eq_length_filter, ← List.countP_eq_length_filter]
      exact ((List.mergeSort_perm (scored_reviews scorer reviews)
        score_desc).countP_eq _).symm
    exact (h2.eq_of_length hlen).symm

/-- C7 witness: instantiation at a constant score 1, query `"great"`, a
one-record corpus and limit 10. -/
theorem c7_scorer_ranking_witness :
    ((perform_text_search (fun _ => 1) "great" [sample_meta] 10).all
      (fun hit => decide (0 < hit.similarity_score)) = true) ∧
    List.Pairwise
      (fun a b : SearchResult => b.similarity_score ≤ a.similarity_score)
      (perform_text_search (fun _ => 1) "great" [sample_meta] 10) ∧
    (perform_text_search (fun _ => 1) "great" [sample_meta] 10).length ≤ 10 ∧
    (∀ c : ℚ,
      (sort_scored (scored_reviews (fun _ => 1) [sample_meta])).filter
          (fun p => decide (p.2 = c))
        = (scored_reviews (fun _ => 1) [sample_meta]).filter
          (fun p => decide (p.2 = c))) :=
  c7_scorer_ranking (fun _ => 1) "great" [sample_meta] 10

end Interview
